import Mathlib

/-!
Shallow embedding of the crate-cache service of rust-docs-mcp
(src/rust-docs-mcp/src/cache/service.rs) and a verification of the
frozen claims about it.

The service coordinates a disk-backed cache of crate sources and
generated documentation artifacts.  Its collaborators (CacheStorage,
CrateDownloader, DocGenerator, WorkspaceHandler, CacheTransaction,
CacheResponse) live in repository files that are not part of the staged
sources; they are modelled here from the specification's words, each
marked `Modelled from the spec:` in its doc comment.  Every function of
`service.rs` itself is translated clause by clause.

The embedding is stateful: the on-disk cache is an explicit
`CacheState` value threaded through each operation, and the external
backends (registry / repository / local-path acquisition, the
documentation tool, transaction backup and cleanup) are an abstract
`Backends` record of oracle functions, so one run of an operation is a
pure function of the backends and the starting state.
-/

namespace RustDocsMcp

/-- Documentation artifacts are opaque structured values; their identity
is all the claims need, so they are modelled as natural numbers. -/
abbrev Docs := Nat

/-- A cache key: (crate name, version). -/
abbrev CrateKey := String × String

/-- Decidable equality for `Except`, needed to derive it for the model's
structures and to evaluate witnesses. -/
instance {ε α : Type} [DecidableEq ε] [DecidableEq α] : DecidableEq (Except ε α) := fun a b =>
  match a, b with
  | .ok x, .ok y =>
    if h : x = y then .isTrue (by rw [h]) else .isFalse (by intro hc; cases hc; exact h rfl)
  | .error x, .error y =>
    if h : x = y then .isTrue (by rw [h]) else .isFalse (by intro hc; cases hc; exact h rfl)
  | .ok _, .error _ => .isFalse (by intro hc; cases hc)
  | .error _, .ok _ => .isFalse (by intro hc; cases hc)

/-- Errors raised by collaborators and by the service itself.
`ctx` models anyhow's `.context(...)` wrapping. -/
inductive Err where
  | acquisitionFailed (msg : String)
  | parseFailed (msg : String)
  | preconditionUnmet
  | artifactMissing
  | memberMissing (member : String)
  | generationFailed (msg : String)
  | ambiguousWorkspace (members : List String)
  | allMembersFailed (errors : List String)
  | backupFailed (msg : String)
  | cleanupFailed (msg : String)
  | ctx (note : String) (e : Err)
deriving DecidableEq

/-- Modelled from the spec: the human-readable rendering of an error
(anyhow's Display), used when errors are folded into response text. -/
def Err.render : Err → String
  | .acquisitionFailed m => "acquisition failed: " ++ m
  | .parseFailed m => "parse failed: " ++ m
  | .preconditionUnmet => "precondition unmet: source not acquired"
  | .artifactMissing => "documentation not found in cache"
  | .memberMissing m => "workspace member not found: " ++ m
  | .generationFailed m => "doc generation failed: " ++ m
  | .ambiguousWorkspace ms => "workspace crate, specify a member: " ++ String.intercalate ", " ms
  | .allMembersFailed es => "failed to update any workspace members: " ++ String.intercalate "; " es
  | .backupFailed m => "backup failed: " ++ m
  | .cleanupFailed m => "cleanup failed: " ++ m
  | .ctx note e => note ++ ": " ++ e.render

/-- Modelled from the spec: what the Workspace Inspector and the member
manifests expose about an acquired source tree.  `isWorkspaceResult` and
`membersResult` are the (possibly failing) answers of the manifest
parser; `memberManifests` lists the member paths whose own Cargo.toml
exists; `hasCargoToml` is the existence of the root manifest file. -/
structure SourceTree where
  hasCargoToml : Bool
  isWorkspaceResult : Except Err Bool
  membersResult : Except Err (List String)
  memberManifests : List String
deriving DecidableEq

/-- Modelled from the spec: one cache entry for a (name, version) key —
the acquired source tree, the package-level artifact once generated, and
the per-member artifacts keyed by member name. -/
structure Entry where
  tree : SourceTree
  docs : Option Docs
  memberDocs : List (String × Docs)
deriving DecidableEq

/-- The observable cache state: the entries of the storage root, plus a
log of backend acquisition invocations and a log of documentation-tool
invocations (package-level carries `none`, member-scoped the member
path), so "no I/O was performed" is stateable. -/
structure CacheState where
  entries : List (CrateKey × Entry)
  acqLog : List CrateKey
  genLog : List (CrateKey × Option String)
deriving DecidableEq

/-- Association-list lookup by decidable key equality. -/
def assocLookup {α β : Type} [DecidableEq α] : List (α × β) → α → Option β
  | [], _ => none
  | (a, b) :: rest, x => if x = a then some b else assocLookup rest x

/-- Association-list removal of every binding of a key. -/
def assocErase {α β : Type} [DecidableEq α] : List (α × β) → α → List (α × β)
  | [], _ => []
  | (a, b) :: rest, x => if x = a then assocErase rest x else (a, b) :: assocErase rest x

/-- Replace (or add) the binding of a key. -/
def assocSet {α β : Type} [DecidableEq α] (l : List (α × β)) (x : α) (b : β) : List (α × β) :=
  (x, b) :: assocErase l x

/-- The backend oracles: the three acquisition backends behind one
dispatch, the documentation tool for package and member scope, and the
transaction's backup/cleanup outcomes.  Each is an opaque operation the
spec treats as an external collaborator. -/
structure Backends where
  download : String → String → Option String → Except Err SourceTree
  genDocs : String → String → Except Err Docs
  genMemberDocs : String → String → String → Except Err Docs
  beginErr : Option String
  commitErr : Option String

/-- Modelled from the spec: CacheStorage.has_docs — a boolean existence
check for the package-level artifact. -/
def has_docs (σ : CacheState) (name version : String) : Bool :=
  match assocLookup σ.entries (name, version) with
  | some e => e.docs.isSome
  | none => false

/-- Modelled from the spec: CacheStorage.is_cached — the source
directory for the key exists. -/
def is_cached (σ : CacheState) (name version : String) : Bool :=
  (assocLookup σ.entries (name, version)).isSome

/-- Modelled from the spec: CacheStorage.has_member_docs — the member's
artifact exists under its parent key. -/
def has_member_docs (σ : CacheState) (name version memberName : String) : Bool :=
  match assocLookup σ.entries (name, version) with
  | some e => (assocLookup e.memberDocs memberName).isSome
  | none => false

namespace WorkspaceHandler

/-- Modelled from the spec: the Workspace Inspector's `is_workspace`
answer for the entry's root manifest (may fail with a parse error). -/
def is_workspace (t : SourceTree) : Except Err Bool :=
  t.isWorkspaceResult

/-- Modelled from the spec: the Inspector's ordered member list for a
workspace manifest (may fail with a parse error). -/
def get_workspace_members (t : SourceTree) : Except Err (List String) :=
  t.membersResult

/-- Accumulator pass for the last '/'-separated segment of a path. -/
def lastSegmentAux : List Char → List Char → List Char
  | [], acc => acc.reverse
  | c :: rest, acc =>
    if c = '/' then lastSegmentAux rest [] else lastSegmentAux rest (c :: acc)

/-- Modelled from the spec: resolving a member path to the member name
its artifacts are stored under — the last path segment. -/
def extract_member_name (member_path : String) : String :=
  String.mk (lastSegmentAux member_path.toList [])

end WorkspaceHandler

/-- Modelled from the spec: the Source Acquirer.  Idempotent: an
already-cached key short-circuits; otherwise the backend is invoked (the
invocation is logged) and on success the tree is persisted under the
key's deterministic path with no artifacts yet. -/
def download_or_copy_crate (B : Backends) (σ : CacheState) (name version : String)
    (source : Option String) : Except Err Unit × CacheState :=
  if is_cached σ name version then (.ok (), σ)
  else
    let σ' := { σ with acqLog := σ.acqLog ++ [(name, version)] }
    match B.download name version source with
    | .ok t => (.ok (), { σ' with entries := assocSet σ'.entries (name, version) ⟨t, none, []⟩ })
    | .error e => (.error e, σ')

/-- Modelled from the spec: DocGenerator.generate — requires prior
acquisition (PreconditionError otherwise); invokes the tool backend
(logged); on failure leaves no artifact visible to `load`. -/
def generate_docs (B : Backends) (σ : CacheState) (name version : String) :
    Except Err Unit × CacheState :=
  match assocLookup σ.entries (name, version) with
  | none => (.error .preconditionUnmet, σ)
  | some e =>
    let σ' := { σ with genLog := σ.genLog ++ [((name, version), none)] }
    match B.genDocs name version with
    | .ok d =>
      (.ok (), { σ' with entries := assocSet σ'.entries (name, version) ({ e with docs := some d }) })
    | .error er => (.error er, σ')

/-- Modelled from the spec: DocGenerator.generate_member — same
contract, scoped; fails MemberNotFound if the member's manifest file is
absent under the source directory; the produced artifact is stored under
the resolved member name. -/
def generate_workspace_member_docs (B : Backends) (σ : CacheState)
    (name version member_path : String) : Except Err Unit × CacheState :=
  match assocLookup σ.entries (name, version) with
  | none => (.error .preconditionUnmet, σ)
  | some e =>
    if member_path ∈ e.tree.memberManifests then
      let σ' := { σ with genLog := σ.genLog ++ [((name, version), some member_path)] }
      match B.genMemberDocs name version member_path with
      | .ok d =>
        let e' := { e with memberDocs :=
          e.memberDocs ++ [(WorkspaceHandler.extract_member_name member_path, d)] }
        (.ok (), { σ' with entries := assocSet σ'.entries (name, version) e' })
      | .error er => (.error er, σ')
    else (.error (.memberMissing member_path), σ)

/-- Modelled from the spec: DocGenerator.load — NotFound if never
generated; a pure read. -/
def load_docs (σ : CacheState) (name version : String) : Except Err Docs :=
  match assocLookup σ.entries (name, version) with
  | some e =>
    match e.docs with
    | some d => .ok d
    | none => .error .artifactMissing
  | none => .error .artifactMissing

/-- Modelled from the spec: DocGenerator.load_member — NotFound if never
generated; a pure read keyed by member name. -/
def load_member_docs (σ : CacheState) (name version member_name : String) : Except Err Docs :=
  match assocLookup σ.entries (name, version) with
  | some e =>
    match assocLookup e.memberDocs member_name with
    | some d => .ok d
    | none => .error .artifactMissing
  | none => .error .artifactMissing

/-- Modelled from the spec: CacheTransaction.begin — captures a backup
of the current entry for the target key, then removes the live entry; on
BackupError the live entry is untouched. -/
def transaction_begin (B : Backends) (σ : CacheState) (k : CrateKey) :
    Except Err (Option Entry × CacheState) :=
  match B.beginErr with
  | some m => .error (.backupFailed m)
  | none => .ok (assocLookup σ.entries k, { σ with entries := assocErase σ.entries k })

/-- Modelled from the spec: the transaction's implicit rollback — the
backup is restored over whatever partial state the failed update left,
on every non-commit exit path. -/
def transaction_rollback (σ : CacheState) (k : CrateKey) (backup : Option Entry) : CacheState :=
  match backup with
  | some e => { σ with entries := assocSet σ.entries k e }
  | none => { σ with entries := assocErase σ.entries k }

/-- Modelled from the spec: CacheTransaction.commit — discards the
backup; a CleanupError on backup deletion is reported (the new entry
remains valid). -/
def transaction_commit (B : Backends) : Except Err Unit :=
  match B.commitErr with
  | some m => .error (.cleanupFailed m)
  | none => .ok ()

/-- Parameters of a crates.io registry descriptor (CrateSource::CratesIO). -/
structure CratesIoParams where
  crate_name : String
  version : String
  members : Option (List String)
  update : Option Bool
deriving DecidableEq

/-- Parameters of a GitHub repository descriptor (CrateSource::GitHub). -/
structure GitHubParams where
  crate_name : String
  github_url : String
  branch : Option String
  tag : Option String
  members : Option (List String)
  update : Option Bool
deriving DecidableEq

/-- Parameters of a local-path descriptor (CrateSource::LocalPath). -/
structure LocalPathParams where
  crate_name : String
  version : String
  path : String
  members : Option (List String)
  update : Option Bool
deriving DecidableEq

/-- The source descriptor union (downloader::CrateSource); the
constructors correspond to CratesIO, GitHub and LocalPath. -/
inductive CrateSource where
  | cratesIo (params : CratesIoParams)
  | github (params : GitHubParams)
  | localPath (params : LocalPathParams)
deriving DecidableEq

/-- The `matches!(&source, CrateSource::GitHub(_))` test of
cache_crate_with_source. -/
def CrateSource.isGithub : CrateSource → Bool
  | .github _ => true
  | _ => false

/-- The messages cache_crate_with_source hands to CacheResponse::error,
one constructor per distinct format string of service.rs, carrying the
wrapped error where the format interpolates one. -/
inductive ErrMsg where
  | branchOrTagRequired
  | failedToStartTransaction (e : Err)
  | updateSucceededCleanupFailed (e : Err)
  | updateFailedRestored (e : Err)
  | failedToDownload (e : Err)
  | failedToCacheCrate (e : Err)
deriving DecidableEq

/-- Modelled from the spec: the CacheOutcome union behind
utils::CacheResponse — always fully constructed, one constructor per
variant (Success, SuccessUpdated, WorkspaceDetected, MembersSuccess,
PartialSuccess, Error). -/
inductive CacheResponse where
  | success (name version : String)
  | successUpdated (name version : String)
  | workspaceDetected (name version : String) (members : List String)
      (source_type : String) (updated : Bool)
  | membersSuccess (name version : String) (members results : List String) (updated : Bool)
  | membersPartial (name version : String) (members results errors : List String)
      (updated : Bool)
  | error (message : ErrMsg)
deriving DecidableEq

/-- The caller-facing serialized response.  The spec fixes only that the
serialization describes the outcome's variant and payload, so it is
modelled as the outcome itself. -/
abbrev SerializedResponse := CacheResponse

/-- Modelled from the spec: CacheResponse::to_json — serializes the
outcome into one text-shaped response describing its variant; modelled
as the identity on the abstract outcome. -/
def CacheResponse.to_json (r : CacheResponse) : SerializedResponse := r

/-- The per-member success message pushed by cache_workspace_members. -/
def memberSuccessMsg (member : String) : String :=
  "Successfully cached member: " ++ member

/-- The per-member failure message pushed by cache_workspace_members. -/
def memberErrorMsg (member : String) (e : Err) : String :=
  "Failed to cache member " ++ member ++ ": " ++ e.render

/-- CrateCache::ensure_crate_docs: if docs exist, load them; else
acquire the source if it is not cached; then generate; then load. -/
def ensure_crate_docs (B : Backends) (σ : CacheState) (name version : String)
    (source : Option String) : Except Err Docs × CacheState :=
  if has_docs σ name version then
    (load_docs σ name version, σ)
  else
    match (if ¬ is_cached σ name version then download_or_copy_crate B σ name version source
           else (.ok (), σ)) with
    | (.error e, σ1) => (.error e, σ1)
    | (.ok _, σ1) =>
      match generate_docs B σ1 name version with
      | (.error e, σ2) => (.error e, σ2)
      | (.ok _, σ2) => (load_docs σ2 name version, σ2)

/-- CrateCache::ensure_workspace_member_docs: same pattern, scoped to
one member after resolving the member name. -/
def ensure_workspace_member_docs (B : Backends) (σ : CacheState) (name version : String)
    (source : Option String) (member_path : String) : Except Err Docs × CacheState :=
  let member_name := WorkspaceHandler.extract_member_name member_path
  if has_member_docs σ name version member_name then
    (load_member_docs σ name version member_name, σ)
  else
    match (if ¬ is_cached σ name version then download_or_copy_crate B σ name version source
           else (.ok (), σ)) with
    | (.error e, σ1) => (.error e, σ1)
    | (.ok _, σ1) =>
      match generate_workspace_member_docs B σ1 name version member_path with
      | (.error e, σ2) => (.error e, σ2)
      | (.ok _, σ2) => (load_member_docs σ2 name version member_name, σ2)

/-- CrateCache::ensure_crate_or_member_docs: a member selects the member
path; otherwise a cached workspace without a member fails with the
ambiguous-workspace error listing the available members; otherwise the
regular flow runs. -/
def ensure_crate_or_member_docs (B : Backends) (σ : CacheState) (name version : String)
    (member : Option String) : Except Err Docs × CacheState :=
  match member with
  | some member_path => ensure_workspace_member_docs B σ name version none member_path
  | none =>
    match assocLookup σ.entries (name, version) with
    | some e =>
      if e.tree.hasCargoToml then
        match WorkspaceHandler.is_workspace e.tree with
        | .error er => (.error er, σ)
        | .ok true =>
          match WorkspaceHandler.get_workspace_members e.tree with
          | .error er => (.error er, σ)
          | .ok members => (.error (.ambiguousWorkspace members), σ)
        | .ok false => ensure_crate_docs B σ name version none
      else ensure_crate_docs B σ name version none
    | none => ensure_crate_docs B σ name version none

/-- CrateCache::extract_source_params: (crate_name, version, members,
source_str, update) from the descriptor; for GitHub the version is the
branch, else the tag, else empty (the tool layer is expected to have
validated), and source_str carries the url with a branch/tag fragment. -/
def extract_source_params (source : CrateSource) :
    String × String × Option (List String) × Option String × Bool :=
  match source with
  | .cratesIo p => (p.crate_name, p.version, p.members, none, p.update.getD false)
  | .github p =>
    let version :=
      match p.branch with
      | some branch => branch
      | none =>
        match p.tag with
        | some tag => tag
        | none => ""
    let source_str :=
      match p.branch with
      | some branch => some (p.github_url ++ "#branch:" ++ branch)
      | none =>
        match p.tag with
        | some tag => some (p.github_url ++ "#tag:" ++ tag)
        | none => some p.github_url
    (p.crate_name, version, p.members, source_str, p.update.getD false)
  | .localPath p => (p.crate_name, p.version, p.members, some p.path, p.update.getD false)

/-- The jointly-awaited member futures of cache_workspace_members: one
ensure_workspace_member_docs task per member, every task run to
completion and its (member, result) pair collected.  The cooperative
tasks suspend only at backend calls, so the joined run is modelled as
their sequential execution. -/
def run_member_futures (B : Backends) (σ : CacheState) (name version : String)
    (source : Option String) : List String → List (String × Except Err Docs) × CacheState
  | [] => ([], σ)
  | member :: rest =>
    let (r, σ1) := ensure_workspace_member_docs B σ name version source member
    let (rs, σ2) := run_member_futures B σ1 name version source rest
    ((member, r) :: rs, σ2)

/-- CrateCache::cache_workspace_members: fan out over the requested
members, then aggregate — one success message per Ok result, one error
message per Err result; all-ok yields MembersSuccess, otherwise
PartialSuccess. -/
def cache_workspace_members (B : Backends) (σ : CacheState) (crate_name version : String)
    (members : List String) (source_str : Option String) (updated : Bool) :
    CacheResponse × CacheState :=
  let (pairs, σ') := run_member_futures B σ crate_name version source_str members
  let results := pairs.filterMap fun p =>
    match p.2 with
    | .ok _ => some (memberSuccessMsg p.1)
    | .error _ => none
  let errors := pairs.filterMap fun p =>
    match p.2 with
    | .error e => some (memberErrorMsg p.1 e)
    | .ok _ => none
  if errors.isEmpty then
    (.membersSuccess crate_name version members results updated, σ')
  else
    (.membersPartial crate_name version members results errors updated, σ')

/-- CrateCache::generate_workspace_response: the WorkspaceDetected
outcome with the source type's tag. -/
def sourceTypeOf : CrateSource → String
  | .cratesIo _ => "cratesio"
  | .github _ => "github"
  | .localPath _ => "local"

/-- CrateCache::generate_workspace_response. -/
def generate_workspace_response (crate_name version : String) (members : List String)
    (source : CrateSource) (updated : Bool) : CacheResponse :=
  .workspaceDetected crate_name version members (sourceTypeOf source) updated

/-- CrateCache::cache_crate_with_update_impl: with requested members,
fan out (updated = true) and turn an all-members-failed PartialSuccess
into an error; without members, re-acquire, report WorkspaceDetected for
a workspace, else ensure docs and report SuccessUpdated. -/
def cache_crate_with_update_impl (B : Backends) (σ : CacheState) (crate_name version : String)
    (members : Option (List String)) (source_str : Option String) (source : CrateSource) :
    Except Err CacheResponse × CacheState :=
  match members with
  | some ms =>
    let (response, σ') := cache_workspace_members B σ crate_name version ms source_str true
    match response with
    | .membersPartial n v mem results errors u =>
      if results.isEmpty then
        (.error (.allMembersFailed errors), σ')
      else
        (.ok (.membersPartial n v mem results errors u), σ')
    | r => (.ok r, σ')
  | none =>
    match download_or_copy_crate B σ crate_name version source_str with
    | (.error e, σ1) => (.error e, σ1)
    | (.ok _, σ1) =>
      match assocLookup σ1.entries (crate_name, version) with
      | none =>
        -- Unreachable after a successful acquisition; reading the manifest
        -- of a missing tree is a parse failure, propagated by `?`.
        (.error (.parseFailed "missing source tree"), σ1)
      | some e =>
        match WorkspaceHandler.is_workspace e.tree with
        | .error er => (.error er, σ1)
        | .ok true =>
          match WorkspaceHandler.get_workspace_members e.tree with
          | .error er => (.error er, σ1)
          | .ok ms => (.ok (generate_workspace_response crate_name version ms source true), σ1)
        | .ok false =>
          match ensure_crate_docs B σ1 crate_name version source_str with
          | (.error er, σ2) => (.error er, σ2)
          | (.ok _, σ2) => (.ok (.successUpdated crate_name version), σ2)

/-- CrateCache::handle_crate_update: begin the transaction (backup and
clear), run the wrapped re-cache, commit on success; on failure the
dropped transaction restores the backup before the error response is
returned. -/
def handle_crate_update (B : Backends) (σ : CacheState) (crate_name version : String)
    (members : Option (List String)) (source_str : Option String) (source : CrateSource) :
    SerializedResponse × CacheState :=
  match transaction_begin B σ (crate_name, version) with
  | .error e => ((CacheResponse.error (.failedToStartTransaction e)).to_json, σ)
  | .ok (backup, σ0) =>
    match cache_crate_with_update_impl B σ0 crate_name version members source_str source with
    | (.ok response, σ1) =>
      match transaction_commit B with
      | .error e => ((CacheResponse.error (.updateSucceededCleanupFailed e)).to_json, σ1)
      | .ok _ => (response.to_json, σ1)
    | (.error e, σ1) =>
      ((CacheResponse.error (.updateFailedRestored e)).to_json,
        transaction_rollback σ1 (crate_name, version) backup)

/-- CrateCache::handle_workspace_members: delegates to
cache_workspace_members. -/
def handle_workspace_members (B : Backends) (σ : CacheState) (crate_name version : String)
    (members : List String) (source_str : Option String) (updated : Bool) :
    CacheResponse × CacheState :=
  cache_workspace_members B σ crate_name version members source_str updated

/-- CrateCache::cache_regular_crate: ensure docs with the
"Failed to cache crate" context, then report Success. -/
def cache_regular_crate (B : Backends) (σ : CacheState) (crate_name version : String)
    (source_str : Option String) : Except Err CacheResponse × CacheState :=
  match ensure_crate_docs B σ crate_name version source_str with
  | (.error e, σ1) => (.error (.ctx "Failed to cache crate" e), σ1)
  | (.ok _, σ1) => (.ok (.success crate_name version), σ1)

/-- CrateCache::detect_and_handle_workspace: Ok(true) reports the
members (the member query's failure is context-wrapped and propagated);
Ok(false) caches normally; an inspection error is swallowed and normal
caching is tried anyway.  A missing entry makes the manifest read fail,
which is the same swallowed-error path. -/
def detect_and_handle_workspace (B : Backends) (σ : CacheState) (crate_name version : String)
    (source : CrateSource) (source_str : Option String) (updated : Bool) :
    Except Err CacheResponse × CacheState :=
  match assocLookup σ.entries (crate_name, version) with
  | none => cache_regular_crate B σ crate_name version source_str
  | some e =>
    match WorkspaceHandler.is_workspace e.tree with
    | .ok true =>
      match WorkspaceHandler.get_workspace_members e.tree with
      | .error er => (.error (.ctx "Failed to get workspace members" er), σ)
      | .ok ms => (.ok (generate_workspace_response crate_name version ms source updated), σ)
    | .ok false => cache_regular_crate B σ crate_name version source_str
    | .error _ => cache_regular_crate B σ crate_name version source_str

/-- CrateCache::cache_crate_with_source: extract the descriptor's
parameters; reject a GitHub descriptor with an empty version; route an
update of a cached key through the transaction; fan out when members are
requested; else acquire and dispatch on workspace detection, converting
every escaping error into an Error response. -/
def cache_crate_with_source (B : Backends) (σ : CacheState) (source : CrateSource) :
    SerializedResponse × CacheState :=
  let (crate_name, version, members, source_str, update) := extract_source_params source
  if source.isGithub && version.isEmpty then
    ((CacheResponse.error .branchOrTagRequired).to_json, σ)
  else if update && is_cached σ crate_name version then
    handle_crate_update B σ crate_name version members source_str source
  else
    match members with
    | some ms =>
      let (response, σ') := handle_workspace_members B σ crate_name version ms source_str false
      (response.to_json, σ')
    | none =>
      match download_or_copy_crate B σ crate_name version source_str with
      | (.error e, σ1) => ((CacheResponse.error (.failedToDownload e)).to_json, σ1)
      | (.ok _, σ1) =>
        match detect_and_handle_workspace B σ1 crate_name version source source_str false with
        | (.ok response, σ2) => (response.to_json, σ2)
        | (.error e, σ2) => ((CacheResponse.error (.failedToCacheCrate e)).to_json, σ2)

/-! ### Association-list lemmas -/

theorem assocLookup_set_self {α β : Type} [DecidableEq α] (l : List (α × β)) (x : α) (b : β) :
    assocLookup (assocSet l x b) x = some b := by
  simp [assocSet, assocLookup]

theorem assocLookup_erase {α β : Type} [DecidableEq α] (l : List (α × β)) (x y : α) :
    assocLookup (assocErase l x) y = if y = x then none else assocLookup l y := by
  induction l with
  | nil => simp [assocErase, assocLookup]
  | cons hd tl ih =>
    obtain ⟨a, b⟩ := hd
    by_cases hxa : x = a
    · subst hxa
      have h1 : assocErase ((x, b) :: tl) x = assocErase tl x := by simp [assocErase]
      rw [h1, ih]
      by_cases hyx : y = x
      · simp [hyx]
      · simp [hyx, assocLookup]
    · have h1 : assocErase ((a, b) :: tl) x = (a, b) :: assocErase tl x := by
        simp [assocErase, hxa]
      rw [h1]
      simp only [assocLookup]
      by_cases hya : y = a
      · have hyx : ¬ y = x := by
          intro h
          exact hxa (by rw [← h, hya])
        have hax : ¬ a = x := by
          intro h
          exact hyx (by rw [hya, h])
        simp [hya, hyx, hax]
      · rw [if_neg hya, ih]
        by_cases hyx : y = x
        · simp [hyx]
        · simp [hyx, assocLookup, hya]

theorem assocLookup_append_of_none {α β : Type} [DecidableEq α] {l1 : List (α × β)} {x : α}
    (h : assocLookup l1 x = none) (l2 : List (α × β)) :
    assocLookup (l1 ++ l2) x = assocLookup l2 x := by
  induction l1 with
  | nil => rfl
  | cons hd tl ih =>
    obtain ⟨a, b⟩ := hd
    by_cases hxa : x = a
    · simp [assocLookup, hxa] at h
    · simp [assocLookup, hxa] at h ⊢
      exact ih h

theorem lookup_rollback (σ : CacheState) (k : CrateKey) (b : Option Entry) :
    assocLookup (transaction_rollback σ k b).entries k = b := by
  cases b with
  | some e => simp [transaction_rollback, assocLookup_set_self]
  | none => simp [transaction_rollback, assocLookup_erase]

/-! ### Loading lemmas -/

theorem has_docs_of_load_ok {σ : CacheState} {n v : String} {d : Docs}
    (h : load_docs σ n v = .ok d) : has_docs σ n v = true := by
  unfold load_docs at h
  unfold has_docs
  rcases hl : assocLookup σ.entries (n, v) with _ | e
  · rw [hl] at h
    simp at h
  · rw [hl] at h
    simp only [Option.isSome]
    rcases hd2 : e.docs with _ | dd
    · simp only [hd2] at h
      simp at h
    · simp [hd2]

theorem load_of_ensure_ok {B : Backends} {σ σ' : CacheState} {n v : String}
    {s : Option String} {d : Docs} (h : ensure_crate_docs B σ n v s = (.ok d, σ')) :
    load_docs σ' n v = .ok d := by
  unfold ensure_crate_docs at h
  split at h
  · have h1 := congrArg Prod.fst h
    have h2 := congrArg Prod.snd h
    simp only [] at h1 h2
    rw [← h2, h1]
  · split at h
    · simp at h
    · split at h
      · simp at h
      · have h1 := congrArg Prod.fst h
        have h2 := congrArg Prod.snd h
        simp only [] at h1 h2
        rw [← h2, h1]

/-! ### C7 — ensure_docs idempotence -/

/-- C7: ensure_docs is idempotent — after a successful
`ensure_crate_docs` the second call (under any backends and any source
hint) returns the identical artifact and leaves the state untouched: it
is a pure cache hit that re-acquires and re-generates nothing. -/
theorem ensure_crate_docs_idempotent (B B' : Backends) (σ σ' : CacheState)
    (n v : String) (s s' : Option String) (d : Docs)
    (h : ensure_crate_docs B σ n v s = (.ok d, σ')) :
    ensure_crate_docs B' σ' n v s' = (.ok d, σ') := by
  have hload : load_docs σ' n v = .ok d := load_of_ensure_ok h
  have hdocs : has_docs σ' n v = true := has_docs_of_load_ok hload
  unfold ensure_crate_docs
  rw [if_pos hdocs, hload]

/-- A plain non-workspace backend set used by concrete witnesses. -/
def demoBackends : Backends :=
  ⟨fun _ _ _ => .ok ⟨true, .ok false, .ok [], []⟩,
    fun _ _ => .ok 7, fun _ _ _ => .ok 5, none, none⟩

/-- The empty cache state. -/
def emptyCache : CacheState := ⟨[], [], []⟩

/-- The state after one successful ensure_crate_docs run from empty. -/
def demoRunState : CacheState :=
  (ensure_crate_docs demoBackends emptyCache "alpha" "1.0.0" none).2

/-- Witness for C7 at a concrete run: caching "alpha" 1.0.0 from empty
state succeeds with artifact 7, and the repeated call is a pure hit. -/
theorem ensure_crate_docs_idempotent_witness :
    ensure_crate_docs demoBackends demoRunState "alpha" "1.0.0" none = (.ok 7, demoRunState) :=
  ensure_crate_docs_idempotent demoBackends demoBackends emptyCache demoRunState
    "alpha" "1.0.0" none none 7 (by decide)

/-! ### C1 — update transaction atomicity -/

/-- C1: if the wrapped re-cache operation fails after the transaction's
begin (which backed up and cleared the key's entry), handle_crate_update
reports the restored-from-backup error and the entry for the key —
source tree and artifacts — is exactly the entry from before begin, on
this non-commit exit path. -/
theorem handle_crate_update_atomic (B : Backends) (σ : CacheState) (n v : String)
    (members : Option (List String)) (s : Option String) (src : CrateSource) (e : Err)
    (hbegin : B.beginErr = none)
    (hfail : (cache_crate_with_update_impl B { σ with entries := assocErase σ.entries (n, v) }
        n v members s src).1 = .error e) :
    (handle_crate_update B σ n v members s src).1
        = CacheResponse.error (.updateFailedRestored e) ∧
    assocLookup (handle_crate_update B σ n v members s src).2.entries (n, v)
        = assocLookup σ.entries (n, v) := by
  rcases himpl : cache_crate_with_update_impl B { σ with entries := assocErase σ.entries (n, v) }
      n v members s src with ⟨r, σ1⟩
  have hr : r = .error e := by
    rw [himpl] at hfail
    exact hfail
  subst hr
  simp only [handle_crate_update, transaction_begin, hbegin, himpl, CacheResponse.to_json]
  exact ⟨trivial, lookup_rollback σ1 (n, v) (assocLookup σ.entries (n, v))⟩

/-- Backends whose acquisition (and generation) always fail, used to
drive the failure paths of concrete witnesses. -/
def failingBackends : Backends :=
  ⟨fun _ _ _ => .error (.acquisitionFailed "network unavailable"),
    fun _ _ => .error (.generationFailed "tool failed"),
    fun _ _ _ => .error (.generationFailed "tool failed"), none, none⟩

/-- A state with "alpha" 1.0.0 cached, docs generated. -/
def cachedAlpha : CacheState :=
  ⟨[(("alpha", "1.0.0"), ⟨⟨true, .ok false, .ok [], []⟩, some 1, []⟩)], [], []⟩

/-- Witness for C1: an update of cached "alpha" 1.0.0 whose re-download
fails reports the restoration error and leaves the entry unchanged. -/
theorem handle_crate_update_atomic_witness :
    (handle_crate_update failingBackends cachedAlpha "alpha" "1.0.0" none none
        (.cratesIo ⟨"alpha", "1.0.0", none, some true⟩)).1
      = CacheResponse.error (.updateFailedRestored (.acquisitionFailed "network unavailable")) ∧
    assocLookup (handle_crate_update failingBackends cachedAlpha "alpha" "1.0.0" none none
        (.cratesIo ⟨"alpha", "1.0.0", none, some true⟩)).2.entries ("alpha", "1.0.0")
      = assocLookup cachedAlpha.entries ("alpha", "1.0.0") :=
  handle_crate_update_atomic failingBackends cachedAlpha "alpha" "1.0.0" none none
    (.cratesIo ⟨"alpha", "1.0.0", none, some true⟩) (.acquisitionFailed "network unavailable")
    rfl (by decide)

/-! ### C9 — update with an explicit member list -/

/-- C9: during an update with a requested member list whose fan-out
aggregates to PartialSuccess: if every member failed the wrapped
operation turns it into an error, the transaction rolls back and the
outcome is Error with the entry restored; if at least one member
succeeded the transaction commits, the outcome is the PartialSuccess
itself and the state is exactly what the update run left — the failed
members' previous artifacts, cleared at begin, are not restored. -/
theorem handle_crate_update_members (B : Backends) (σ : CacheState) (n v : String)
    (ms : List String) (s : Option String) (src : CrateSource)
    (results errors : List String) (σ1 : CacheState)
    (hbegin : B.beginErr = none)
    (hrun : cache_workspace_members B { σ with entries := assocErase σ.entries (n, v) }
        n v ms s true = (.membersPartial n v ms results errors true, σ1)) :
    (results = [] →
      handle_crate_update B σ n v (some ms) s src
        = (CacheResponse.error (.updateFailedRestored (.allMembersFailed errors)),
           transaction_rollback σ1 (n, v) (assocLookup σ.entries (n, v))) ∧
      assocLookup (transaction_rollback σ1 (n, v)
          (assocLookup σ.entries (n, v))).entries (n, v)
        = assocLookup σ.entries (n, v)) ∧
    (results ≠ [] → B.commitErr = none →
      handle_crate_update B σ n v (some ms) s src
        = (.membersPartial n v ms results errors true, σ1)) := by
  constructor
  · intro hres
    subst hres
    simp only [handle_crate_update, transaction_begin, hbegin, cache_crate_with_update_impl,
      hrun, List.isEmpty_nil, if_true, CacheResponse.to_json]
    exact ⟨trivial, lookup_rollback σ1 (n, v) (assocLookup σ.entries (n, v))⟩
  · intro hres hcommit
    have hne : results.isEmpty = false := by
      cases results with
      | nil => exact absurd rfl hres
      | cons a l => rfl
    simp only [handle_crate_update, transaction_begin, hbegin, cache_crate_with_update_impl,
      hrun, hne, transaction_commit, hcommit, CacheResponse.to_json]
    simp

/-- A two-member workspace tree used by concrete witnesses. -/
def wsTree : SourceTree :=
  ⟨true, .ok true, .ok ["crates/a", "crates/b"], ["crates/a", "crates/b"]⟩

/-- Backends for which member "crates/a" generates and "crates/b" fails. -/
def mixedBackends : Backends :=
  ⟨fun _ _ _ => .ok wsTree, fun _ _ => .ok 7,
    fun _ _ m => if m = "crates/b" then .error (.generationFailed "b broke") else .ok 5,
    none, none⟩

/-- A state with workspace "w" 1 cached and a previous artifact for
member "b". -/
def wsCached : CacheState := ⟨[(("w", "1"), ⟨wsTree, none, [("b", 9)]⟩)], [], []⟩

/-- Witness for C9: updating members [crates/a, crates/b] of cached
"w" 1 where only crates/a succeeds commits the PartialSuccess and keeps
the post-update state (member b's old artifact is gone with the
backup). -/
theorem handle_crate_update_members_witness :
    handle_crate_update mixedBackends wsCached "w" "1" (some ["crates/a", "crates/b"]) none
        (.cratesIo ⟨"w", "1", some ["crates/a", "crates/b"], some true⟩)
      = (.membersPartial "w" "1" ["crates/a", "crates/b"]
          ["Successfully cached member: crates/a"]
          ["Failed to cache member crates/b: doc generation failed: b broke"] true,
        (cache_workspace_members mixedBackends
            ({ wsCached with entries := assocErase wsCached.entries ("w", "1") })
            "w" "1" ["crates/a", "crates/b"] none true).2) :=
  (handle_crate_update_members mixedBackends wsCached "w" "1" ["crates/a", "crates/b"] none
      (.cratesIo ⟨"w", "1", some ["crates/a", "crates/b"], some true⟩)
      ["Successfully cached member: crates/a"]
      ["Failed to cache member crates/b: doc generation failed: b broke"]
      ((cache_workspace_members mixedBackends
          ({ wsCached with entries := assocErase wsCached.entries ("w", "1") })
          "w" "1" ["crates/a", "crates/b"] none true).2)
      rfl (by decide)).2 (by decide) rfl

/-! ### C6 — ambiguous workspace in ensure_crate_or_member_docs -/

/-- C6: for a cached workspace key, ensure_crate_or_member_docs without
a member fails with the ambiguous-workspace error listing the detected
members instead of guessing, and with a member present it follows the
member-docs path. -/
theorem ensure_crate_or_member_docs_ambiguous (B : Backends) (σ : CacheState) (n v : String)
    (e : Entry) (ms : List String)
    (hc : assocLookup σ.entries (n, v) = some e)
    (hcargo : e.tree.hasCargoToml = true)
    (hws : e.tree.isWorkspaceResult = .ok true)
    (hm : e.tree.membersResult = .ok ms) :
    ensure_crate_or_member_docs B σ n v none = (.error (.ambiguousWorkspace ms), σ) ∧
    ∀ mp, ensure_crate_or_member_docs B σ n v (some mp)
        = ensure_workspace_member_docs B σ n v none mp := by
  constructor
  · simp [ensure_crate_or_member_docs, hc, hcargo, WorkspaceHandler.is_workspace, hws,
      WorkspaceHandler.get_workspace_members, hm]
  · intro mp
    rfl

/-- Witness for C6 on the cached workspace "w" 1. -/
theorem ensure_crate_or_member_docs_ambiguous_witness :
    ensure_crate_or_member_docs mixedBackends wsCached "w" "1" none
        = (.error (.ambiguousWorkspace ["crates/a", "crates/b"]), wsCached) ∧
    ∀ mp, ensure_crate_or_member_docs mixedBackends wsCached "w" "1" (some mp)
        = ensure_workspace_member_docs mixedBackends wsCached "w" "1" none mp :=
  ensure_crate_or_member_docs_ambiguous mixedBackends wsCached "w" "1"
    ⟨wsTree, none, [("b", 9)]⟩ ["crates/a", "crates/b"] (by decide) rfl rfl rfl

/-! ### C10 — empty requested member list -/

/-- C10: a descriptor whose requested member list is present but empty
(and to which no update applies) performs no acquisition and no
generation — the state is returned untouched — and yields MembersSuccess
with empty member and result lists. -/
theorem cache_crate_with_source_empty_members (B : Backends) (σ : CacheState)
    (src : CrateSource) (n v : String) (s : Option String) (u : Bool)
    (hx : extract_source_params src = (n, v, some [], s, u))
    (hvalid : (src.isGithub && v.isEmpty) = false)
    (hupd : (u && is_cached σ n v) = false) :
    cache_crate_with_source B σ src = (.membersSuccess n v [] [] false, σ) := by
  simp [cache_crate_with_source, hx, hvalid, hupd, handle_workspace_members,
    cache_workspace_members, run_member_futures, CacheResponse.to_json]

/-- Witness for C10: an empty member list on an empty cache. -/
theorem cache_crate_with_source_empty_members_witness :
    cache_crate_with_source demoBackends emptyCache (.cratesIo ⟨"e", "1", some [], none⟩)
        = (.membersSuccess "e" "1" [] [] false, emptyCache) :=
  cache_crate_with_source_empty_members demoBackends emptyCache
    (.cratesIo ⟨"e", "1", some [], none⟩) "e" "1" none false rfl rfl rfl

/-! ### C5 — workspace detection without a requested member -/

/-- The state download_or_copy_crate leaves after a fresh successful
acquisition of tree `t` for key (n, v). -/
def postDownloadState (σ : CacheState) (n v : String) (t : SourceTree) : CacheState :=
  { σ with
    entries := assocSet σ.entries (n, v) ⟨t, none, []⟩
    acqLog := σ.acqLog ++ [(n, v)] }

theorem download_fresh (B : Backends) (σ : CacheState) (n v : String) (s : Option String)
    (t : SourceTree) (hnc : is_cached σ n v = false) (hdl : B.download n v s = .ok t) :
    download_or_copy_crate B σ n v s = (.ok (), postDownloadState σ n v t) := by
  simp [download_or_copy_crate, hnc, hdl, postDownloadState]

/-- C5: caching a multi-member workspace source without a requested
member (and with no update applying) yields WorkspaceDetected listing
every member the workspace manifest declares, and generates no
documentation artifact for the key or any member (the generation log is
untouched). -/
theorem cache_crate_with_source_workspace_detected (B : Backends) (σ : CacheState)
    (src : CrateSource) (n v : String) (s : Option String) (u : Bool)
    (t : SourceTree) (ms : List String)
    (hx : extract_source_params src = (n, v, none, s, u))
    (hvalid : (src.isGithub && v.isEmpty) = false)
    (hnc : is_cached σ n v = false)
    (hdl : B.download n v s = .ok t)
    (hws : t.isWorkspaceResult = .ok true)
    (hm : t.membersResult = .ok ms)
    (_hmulti : 2 ≤ ms.length) :
    ∃ σ', cache_crate_with_source B σ src
        = (.workspaceDetected n v ms (sourceTypeOf src) false, σ') ∧
      has_docs σ' n v = false ∧
      (∀ m, has_member_docs σ' n v m = false) ∧
      σ'.genLog = σ.genLog := by
  refine ⟨postDownloadState σ n v t, ?_, ?_, ?_, ?_⟩
  · have hdl' := download_fresh B σ n v s t hnc hdl
    have hdet : detect_and_handle_workspace B (postDownloadState σ n v t) n v src s false
        = (.ok (.workspaceDetected n v ms (sourceTypeOf src) false),
          postDownloadState σ n v t) := by
      simp [detect_and_handle_workspace, postDownloadState, assocLookup_set_self,
        WorkspaceHandler.is_workspace, hws, WorkspaceHandler.get_workspace_members, hm,
        generate_workspace_response]
    simp [cache_crate_with_source, hx, hvalid, hnc, hdl', hdet, CacheResponse.to_json]
  · simp [has_docs, postDownloadState, assocLookup_set_self]
  · intro m
    simp [has_member_docs, postDownloadState, assocLookup_set_self, assocLookup]
  · rfl

/-- Witness for C5: the two-member workspace "w" 1 acquired fresh. -/
theorem cache_crate_with_source_workspace_detected_witness :
    ∃ σ', cache_crate_with_source mixedBackends emptyCache (.cratesIo ⟨"w", "1", none, none⟩)
        = (.workspaceDetected "w" "1" ["crates/a", "crates/b"]
            (sourceTypeOf (.cratesIo ⟨"w", "1", none, none⟩)) false, σ') ∧
      has_docs σ' "w" "1" = false ∧
      (∀ m, has_member_docs σ' "w" "1" m = false) ∧
      σ'.genLog = emptyCache.genLog :=
  cache_crate_with_source_workspace_detected mixedBackends emptyCache
    (.cratesIo ⟨"w", "1", none, none⟩) "w" "1" none false wsTree ["crates/a", "crates/b"]
    rfl rfl rfl rfl rfl rfl (by decide)

/-! ### C8 — workspace-inspection error is swallowed -/

/-- C8: if the workspace-detection check itself errors during a
non-update cache_crate_with_source call with no members requested, the
error is swallowed: detect_and_handle_workspace falls through to the
regular-crate path, and when that path succeeds the overall outcome is
its success — the parse failure alone produces no Error outcome. -/
theorem cache_crate_with_source_parse_swallowed (B : Backends) (σ : CacheState)
    (src : CrateSource) (n v : String) (s : Option String) (u : Bool)
    (t : SourceTree) (pe : Err)
    (hx : extract_source_params src = (n, v, none, s, u))
    (hvalid : (src.isGithub && v.isEmpty) = false)
    (hnc : is_cached σ n v = false)
    (hdl : B.download n v s = .ok t)
    (hws : t.isWorkspaceResult = .error pe) :
    detect_and_handle_workspace B (postDownloadState σ n v t) n v src s false
        = cache_regular_crate B (postDownloadState σ n v t) n v s ∧
    ∀ r σ2, cache_regular_crate B (postDownloadState σ n v t) n v s = (.ok r, σ2) →
      cache_crate_with_source B σ src = (r, σ2) := by
  have hswallow : detect_and_handle_workspace B (postDownloadState σ n v t) n v src s false
      = cache_regular_crate B (postDownloadState σ n v t) n v s := by
    simp [detect_and_handle_workspace, postDownloadState, assocLookup_set_self,
      WorkspaceHandler.is_workspace, hws]
  refine ⟨hswallow, ?_⟩
  intro r σ2 hreg
  have hdl' := download_fresh B σ n v s t hnc hdl
  simp [cache_crate_with_source, hx, hvalid, hnc, hdl', hswallow, hreg,
    CacheResponse.to_json]

/-- A tree whose workspace inspection fails to parse. -/
def parseErrTree : SourceTree := ⟨true, .error (.parseFailed "bad toml"), .ok [], []⟩

/-- Backends acquiring parseErrTree; generation succeeds. -/
def parseErrBackends : Backends :=
  ⟨fun _ _ _ => .ok parseErrTree, fun _ _ => .ok 7, fun _ _ _ => .ok 5, none, none⟩

/-- Witness for C8: caching "p" 1 whose manifest inspection fails still
follows the regular path, and since generation succeeds the outcome is
Success. -/
theorem cache_crate_with_source_parse_swallowed_witness :
    detect_and_handle_workspace parseErrBackends
        (postDownloadState emptyCache "p" "1" parseErrTree) "p" "1"
        (.cratesIo ⟨"p", "1", none, none⟩) none false
      = cache_regular_crate parseErrBackends
        (postDownloadState emptyCache "p" "1" parseErrTree) "p" "1" none ∧
    ∀ r σ2, cache_regular_crate parseErrBackends
        (postDownloadState emptyCache "p" "1" parseErrTree) "p" "1" none = (.ok r, σ2) →
      cache_crate_with_source parseErrBackends emptyCache (.cratesIo ⟨"p", "1", none, none⟩)
        = (r, σ2) :=
  cache_crate_with_source_parse_swallowed parseErrBackends emptyCache
    (.cratesIo ⟨"p", "1", none, none⟩) "p" "1" none false parseErrTree
    (.parseFailed "bad toml") rfl rfl rfl rfl rfl

/-! ### C2 — total classification at the orchestrator boundary -/

/-- Well-formedness of a sub-operation's outcome: a non-error response
carries the extracted crate name and version, and an error response is
never the pre-I/O branch-or-tag validation message (only the top-level
validation check constructs that one). -/
def subOutcomeWF (n v : String) : CacheResponse → Prop
  | .error m => m ≠ .branchOrTagRequired
  | .success n' v' => n' = n ∧ v' = v
  | .successUpdated n' v' => n' = n ∧ v' = v
  | .workspaceDetected n' v' _ _ _ => n' = n ∧ v' = v
  | .membersSuccess n' v' _ _ _ => n' = n ∧ v' = v
  | .membersPartial n' v' _ _ _ _ => n' = n ∧ v' = v

/-- Well-formedness of the public outcome: an Error response (any
message) or a success-family response carrying the descriptor's name and
version. -/
def outcomeWF (n v : String) : CacheResponse → Prop
  | .error _ => True
  | .success n' v' => n' = n ∧ v' = v
  | .successUpdated n' v' => n' = n ∧ v' = v
  | .workspaceDetected n' v' _ _ _ => n' = n ∧ v' = v
  | .membersSuccess n' v' _ _ _ => n' = n ∧ v' = v
  | .membersPartial n' v' _ _ _ _ => n' = n ∧ v' = v

theorem outcomeWF_of_sub {n v : String} {r : CacheResponse} (h : subOutcomeWF n v r) :
    outcomeWF n v r := by
  cases r
  case error m => trivial
  all_goals exact h

theorem cwm_WF (B : Backends) (σ : CacheState) (n v : String) (ms : List String)
    (s : Option String) (u : Bool) :
    subOutcomeWF n v (cache_workspace_members B σ n v ms s u).1 := by
  unfold cache_workspace_members
  rcases hrun : run_member_futures B σ n v s ms with ⟨pairs, σ1⟩
  dsimp only
  split
  · exact ⟨rfl, rfl⟩
  · exact ⟨rfl, rfl⟩

theorem regular_ok_WF (B : Backends) (σ : CacheState) (n v : String) (s : Option String)
    (r : CacheResponse) (σ1 : CacheState)
    (h : cache_regular_crate B σ n v s = (.ok r, σ1)) : subOutcomeWF n v r := by
  unfold cache_regular_crate at h
  split at h
  · simp at h
  · have h1 := congrArg Prod.fst h
    simp only [] at h1
    simp at h1
    rw [← h1]
    exact ⟨rfl, rfl⟩

theorem detect_ok_WF (B : Backends) (σ : CacheState) (n v : String) (src : CrateSource)
    (s : Option String) (u : Bool) (r : CacheResponse) (σ1 : CacheState)
    (h : detect_and_handle_workspace B σ n v src s u = (.ok r, σ1)) : subOutcomeWF n v r := by
  unfold detect_and_handle_workspace at h
  split at h
  · exact regular_ok_WF B σ n v s r σ1 h
  · split at h
    · split at h
      · simp at h
      · have h1 := congrArg Prod.fst h
        simp only [generate_workspace_response] at h1
        simp at h1
        rw [← h1]
        exact ⟨rfl, rfl⟩
    · exact regular_ok_WF B σ n v s r σ1 h
    · exact regular_ok_WF B σ n v s r σ1 h

theorem impl_ok_WF (B : Backends) (σ : CacheState) (n v : String)
    (members : Option (List String)) (s : Option String) (src : CrateSource)
    (r : CacheResponse) (σ1 : CacheState)
    (h : cache_crate_with_update_impl B σ n v members s src = (.ok r, σ1)) :
    subOutcomeWF n v r := by
  unfold cache_crate_with_update_impl at h
  cases members with
  | some ms =>
    dsimp only at h
    have hwf := cwm_WF B σ n v ms s true
    rcases hcwm : cache_workspace_members B σ n v ms s true with ⟨resp, σ2⟩
    rw [hcwm] at h hwf
    dsimp only at h hwf
    split at h
    · split at h
      · simp at h
      · have h1 := congrArg Prod.fst h
        simp only [] at h1
        simp at h1
        rw [← h1]
        exact hwf
    · have h1 := congrArg Prod.fst h
      simp only [] at h1
      simp at h1
      rw [← h1]
      exact hwf
  | none =>
    dsimp only at h
    rcases hdl : download_or_copy_crate B σ n v s with ⟨r1, σd⟩
    rw [hdl] at h
    cases r1 with
    | error e => simp at h
    | ok uu =>
      dsimp only at h
      rcases hlk : assocLookup σd.entries (n, v) with _ | ent
      · rw [hlk] at h
        simp at h
      · rw [hlk] at h
        dsimp only at h
        rcases hws : WorkspaceHandler.is_workspace ent.tree with er | bb
        · rw [hws] at h
          simp at h
        · rw [hws] at h
          cases bb with
          | true =>
            dsimp only at h
            rcases hgm : WorkspaceHandler.get_workspace_members ent.tree with er | ms2
            · rw [hgm] at h
              simp at h
            · rw [hgm] at h
              dsimp only at h
              have h1 := congrArg Prod.fst h
              dsimp only [generate_workspace_response] at h1
              simp at h1
              rw [← h1]
              exact ⟨rfl, rfl⟩
          | false =>
            dsimp only at h
            rcases hen : ensure_crate_docs B σd n v s with ⟨r2, σe⟩
            rw [hen] at h
            cases r2 with
            | error e => simp at h
            | ok d =>
              dsimp only at h
              have h1 := congrArg Prod.fst h
              simp at h1
              rw [← h1]
              exact ⟨rfl, rfl⟩

theorem handle_WF (B : Backends) (σ : CacheState) (n v : String)
    (members : Option (List String)) (s : Option String) (src : CrateSource) :
    subOutcomeWF n v (handle_crate_update B σ n v members s src).1 := by
  rcases hb : transaction_begin B σ (n, v) with e | p
  · simp only [handle_crate_update, hb, CacheResponse.to_json]
    intro hc
    cases hc
  · obtain ⟨backup, σ0⟩ := p
    rcases himpl : cache_crate_with_update_impl B σ0 n v members s src with ⟨r0, σ1⟩
    cases r0 with
    | error e =>
      simp only [handle_crate_update, hb, himpl, CacheResponse.to_json]
      intro hc
      cases hc
    | ok resp =>
      rcases hc : transaction_commit B with e | u
      · simp only [handle_crate_update, hb, himpl, hc, CacheResponse.to_json]
        intro hco
        cases hco
      · have := impl_ok_WF B σ0 n v members s src resp σ1 himpl
        simp only [handle_crate_update, hb, himpl, hc, CacheResponse.to_json]
        exact this

theorem cache_crate_with_source_sub_WF (B : Backends) (σ : CacheState) (src : CrateSource)
    (n v : String) (members : Option (List String)) (s : Option String) (u : Bool)
    (hx : extract_source_params src = (n, v, members, s, u))
    (hvalid : (src.isGithub && v.isEmpty) = false) :
    subOutcomeWF n v (cache_crate_with_source B σ src).1 := by
  unfold cache_crate_with_source
  rw [hx]
  simp only [hvalid, Bool.false_eq_true, if_false]
  by_cases hu : (u && is_cached σ n v) = true
  · simp only [hu, if_true]
    exact handle_WF B σ n v members s src
  · rw [Bool.not_eq_true] at hu
    simp only [hu, Bool.false_eq_true, if_false]
    cases members with
    | some ms =>
      have := cwm_WF B σ n v ms s false
      rcases hcwm : cache_workspace_members B σ n v ms s false with ⟨resp, σ2⟩
      rw [hcwm] at this
      simp only [handle_workspace_members, hcwm, CacheResponse.to_json]
      exact this
    | none =>
      rcases hdl : download_or_copy_crate B σ n v s with ⟨r1, σ1⟩
      cases r1 with
      | error e =>
        simp only [hdl, CacheResponse.to_json]
        intro hc
        cases hc
      | ok uu =>
        rcases hdet : detect_and_handle_workspace B σ1 n v src s false with ⟨r2, σ2⟩
        cases r2 with
        | error e =>
          simp only [hdl, hdet, CacheResponse.to_json]
          intro hc
          cases hc
        | ok resp =>
          have := detect_ok_WF B σ1 n v src s false resp σ2 hdet
          simp only [hdl, hdet, CacheResponse.to_json]
          exact this

/-- C2: cache_crate_with_source never raises: for every source
descriptor and every backend behavior it returns one fully-constructed
CacheOutcome — an Error response or a success-family response carrying
the descriptor's extracted crate name and version — so every internal
failure is converted at this boundary rather than propagated. -/
theorem cache_crate_with_source_total (B : Backends) (σ : CacheState) (src : CrateSource) :
    ∃ r σ', cache_crate_with_source B σ src = (r, σ') ∧
      outcomeWF (extract_source_params src).1 (extract_source_params src).2.1 r := by
  refine ⟨(cache_crate_with_source B σ src).1, (cache_crate_with_source B σ src).2,
    rfl, ?_⟩
  rcases hx : extract_source_params src with ⟨n, rest⟩
  obtain ⟨v, members, s, u⟩ := rest
  dsimp only
  by_cases hv : (src.isGithub && v.isEmpty) = true
  · have : cache_crate_with_source B σ src = ((CacheResponse.error .branchOrTagRequired), σ) := by
      unfold cache_crate_with_source
      rw [hx]
      simp only [hv, if_true, CacheResponse.to_json]
    rw [this]
    trivial
  · rw [Bool.not_eq_true] at hv
    exact outcomeWF_of_sub (cache_crate_with_source_sub_WF B σ src n v members s u hx hv)

/-! ### C3 — GitHub branch/tag validation -/

/-- A GitHub descriptor carrying both a branch and a tag. -/
def bothBranchTag : GitHubParams :=
  ⟨"serde", "https://github.com/serde-rs/serde", some "main", some "v1.0", none, none⟩

/-- Counterexample for C3 as stated: with both branch and tag present,
cache_crate_with_source does not fail with the branch-or-tag
ValidationError and it does start acquisition I/O — here the download is
attempted (and fails), so the outcome is the download error and the
acquisition log is nonempty. -/
theorem github_both_branch_tag_counterexample :
    (cache_crate_with_source failingBackends emptyCache (.github bothBranchTag)).1
        = CacheResponse.error (.failedToDownload (.acquisitionFailed "network unavailable")) ∧
    (cache_crate_with_source failingBackends emptyCache (.github bothBranchTag)).2.acqLog
        = [("serde", "main")] := by
  constructor
  · rfl
  · rfl

/-- C3 (amended): for a repository descriptor, if neither branch nor tag
is present cache_crate_with_source fails with the branch-or-tag
ValidationError before any I/O (the state, logs included, is returned
untouched); if a branch is present — even together with a tag — the
branch takes precedence, and for a nonempty branch name the call never
returns the branch-or-tag ValidationError. -/
theorem github_branch_tag_validation (B : Backends) (σ : CacheState) (p : GitHubParams) :
    (p.branch = none → p.tag = none →
      cache_crate_with_source B σ (.github p) = (CacheResponse.error .branchOrTagRequired, σ)) ∧
    (∀ b, p.branch = some b → b.isEmpty = false →
      (cache_crate_with_source B σ (.github p)).1 ≠ CacheResponse.error .branchOrTagRequired) := by
  constructor
  · intro hb ht
    have hx : extract_source_params (.github p)
        = (p.crate_name, "", p.members, some p.github_url, p.update.getD false) := by
      simp [extract_source_params, hb, ht]
    have hempty : ("" : String).isEmpty = true := rfl
    unfold cache_crate_with_source
    rw [hx]
    dsimp only
    simp [CrateSource.isGithub, hempty, CacheResponse.to_json]
  · intro b hb hbe
    have hx : extract_source_params (.github p)
        = (p.crate_name, b, p.members,
           some (p.github_url ++ "#branch:" ++ b), p.update.getD false) := by
      simp [extract_source_params, hb]
    have hsub := cache_crate_with_source_sub_WF B σ (.github p) p.crate_name b p.members
      (some (p.github_url ++ "#branch:" ++ b)) (p.update.getD false) hx
      (by simp [CrateSource.isGithub, hbe])
    intro hcon
    rw [hcon] at hsub
    exact hsub rfl

/-- Witness for the amended C3 (both directions at concrete inputs):
neither branch nor tag gives the ValidationError with the state
untouched, and the both-present descriptor never produces it. -/
theorem github_branch_tag_validation_witness :
    cache_crate_with_source failingBackends emptyCache
        (.github ⟨"serde", "u", none, none, none, none⟩)
      = (CacheResponse.error .branchOrTagRequired, emptyCache) ∧
    (cache_crate_with_source failingBackends emptyCache (.github bothBranchTag)).1
      ≠ CacheResponse.error .branchOrTagRequired :=
  ⟨(github_branch_tag_validation failingBackends emptyCache
      ⟨"serde", "u", none, none, none, none⟩).1 rfl rfl,
   (github_branch_tag_validation failingBackends emptyCache bothBranchTag).2
      "main" rfl rfl⟩

/-! ### C4 — member fan-out aggregation and independence -/

/-- Whether an Except is a success. -/
def exceptOk {ε α : Type} : Except ε α → Bool
  | .ok _ => true
  | .error _ => false

/-- The outcome one member task produces once the source tree `t` for
the key is in the cache: the member's docs generate iff the member's
manifest exists under the tree and the tool backend succeeds.  It is a
function of the backends, the tree and the member alone — no other
member's outcome enters. -/
def memberRunResult (B : Backends) (t : SourceTree) (n v member : String) : Except Err Docs :=
  if member ∈ t.memberManifests then B.genMemberDocs n v member
  else .error (.memberMissing member)

/-- The member-name/artifact pairs the succeeding members persist, in
request order. -/
def successDocsOf (B : Backends) (t : SourceTree) (n v : String) (ms : List String) :
    List (String × Docs) :=
  ms.filterMap fun m =>
    match memberRunResult B t n v m with
    | .ok d => some (WorkspaceHandler.extract_member_name m, d)
    | .error _ => none

theorem ensure_member_step (B : Backends) (σ : CacheState) (n v : String) (s : Option String)
    (m : String) (t : SourceTree) (d0 : Option Docs) (mds : List (String × Docs))
    (hentry : assocLookup σ.entries (n, v) = some ⟨t, d0, mds⟩)
    (hfresh : assocLookup mds (WorkspaceHandler.extract_member_name m) = none) :
    ∃ σ', ensure_workspace_member_docs B σ n v s m = (memberRunResult B t n v m, σ') ∧
      σ'.entries = (match memberRunResult B t n v m with
        | .ok d => assocSet σ.entries (n, v)
            ⟨t, d0, mds ++ [(WorkspaceHandler.extract_member_name m, d)]⟩
        | .error _ => σ.entries) := by
  have hmd : has_member_docs σ n v (WorkspaceHandler.extract_member_name m) = false := by
    simp [has_member_docs, hentry, hfresh]
  have hic : is_cached σ n v = true := by
    simp [is_cached, hentry]
  by_cases hmem : m ∈ t.memberManifests
  · rcases hg : B.genMemberDocs n v m with er | d
    · refine ⟨{ σ with genLog := σ.genLog ++ [((n, v), some m)] }, ?_, ?_⟩
      · simp [ensure_workspace_member_docs, hmd, hic, generate_workspace_member_docs,
          hentry, hmem, hg, memberRunResult]
      · simp [memberRunResult, hmem, hg]
    · refine ⟨{ σ with
          genLog := σ.genLog ++ [((n, v), some m)]
          entries := assocSet σ.entries (n, v)
            ⟨t, d0, mds ++ [(WorkspaceHandler.extract_member_name m, d)]⟩ }, ?_, ?_⟩
      · have hload : load_member_docs
            ({ σ with
              genLog := σ.genLog ++ [((n, v), some m)]
              entries := assocSet σ.entries (n, v)
                ⟨t, d0, mds ++ [(WorkspaceHandler.extract_member_name m, d)]⟩ }) n v
            (WorkspaceHandler.extract_member_name m) = .ok d := by
          simp [load_member_docs, assocLookup_set_self,
            assocLookup_append_of_none hfresh, assocLookup]
        simp [ensure_workspace_member_docs, hmd, hic, generate_workspace_member_docs,
          hentry, hmem, hg, memberRunResult, hload]
      · simp [memberRunResult, hmem, hg]
  · refine ⟨σ, ?_, ?_⟩
    · simp [ensure_workspace_member_docs, hmd, hic, generate_workspace_member_docs,
        hentry, hmem, memberRunResult]
    · simp [memberRunResult, hmem]

theorem run_member_futures_spec (B : Backends) (n v : String) (s : Option String)
    (t : SourceTree) (d0 : Option Docs) (ms : List String) :
    ∀ (σ : CacheState) (mds : List (String × Docs)),
      assocLookup σ.entries (n, v) = some ⟨t, d0, mds⟩ →
      (∀ m ∈ ms, assocLookup mds (WorkspaceHandler.extract_member_name m) = none) →
      (ms.map WorkspaceHandler.extract_member_name).Nodup →
      ∃ σf, run_member_futures B σ n v s ms
          = (ms.map (fun m => (m, memberRunResult B t n v m)), σf) ∧
        assocLookup σf.entries (n, v) = some ⟨t, d0, mds ++ successDocsOf B t n v ms⟩ := by
  induction ms with
  | nil =>
    intro σ mds hentry _ _
    exact ⟨σ, rfl, by simp [successDocsOf, hentry]⟩
  | cons m rest ih =>
    intro σ mds hentry hfresh hnodup
    obtain ⟨σ', hstep, hentries⟩ :=
      ensure_member_step B σ n v s m t d0 mds hentry (hfresh m (by simp))
    have hnodup' : (rest.map WorkspaceHandler.extract_member_name).Nodup :=
      (List.nodup_cons.mp hnodup).2
    have hhead : WorkspaceHandler.extract_member_name m
        ∉ rest.map WorkspaceHandler.extract_member_name :=
      (List.nodup_cons.mp hnodup).1
    rcases hres : memberRunResult B t n v m with er | d
    · rw [hres] at hstep hentries
      have hentry' : assocLookup σ'.entries (n, v) = some ⟨t, d0, mds⟩ := by
        rw [hentries]
        exact hentry
      obtain ⟨σf, hrun, hlast⟩ := ih σ' mds hentry'
        (fun m' hm' => hfresh m' (List.mem_cons_of_mem m hm')) hnodup'
      refine ⟨σf, ?_, ?_⟩
      · unfold run_member_futures
        rw [hstep]
        dsimp only
        rw [hrun]
        simp [hres]
      · rw [hlast]
        have : successDocsOf B t n v (m :: rest) = successDocsOf B t n v rest := by
          simp [successDocsOf, hres]
        rw [this]
    · rw [hres] at hstep hentries
      have hentry' : assocLookup σ'.entries (n, v)
          = some ⟨t, d0, mds ++ [(WorkspaceHandler.extract_member_name m, d)]⟩ := by
        rw [hentries]
        exact assocLookup_set_self σ.entries (n, v) _
      have hfresh' : ∀ m' ∈ rest,
          assocLookup (mds ++ [(WorkspaceHandler.extract_member_name m, d)])
            (WorkspaceHandler.extract_member_name m') = none := by
        intro m' hm'
        have hne : WorkspaceHandler.extract_member_name m'
            ≠ WorkspaceHandler.extract_member_name m := by
          intro hc
          exact hhead (hc ▸ List.mem_map_of_mem WorkspaceHandler.extract_member_name hm')
        rw [assocLookup_append_of_none (hfresh m' (List.mem_cons_of_mem m hm'))]
        simp [assocLookup, hne]
      obtain ⟨σf, hrun, hlast⟩ := ih σ' (mds ++ [(WorkspaceHandler.extract_member_name m, d)])
        hentry' hfresh' hnodup'
      refine ⟨σf, ?_, ?_⟩
      · unfold run_member_futures
        rw [hstep]
        dsimp only
        rw [hrun]
        simp [hres]
      · rw [hlast]
        have : successDocsOf B t n v (m :: rest)
            = (WorkspaceHandler.extract_member_name m, d) :: successDocsOf B t n v rest := by
          simp [successDocsOf, hres]
        rw [this, List.append_assoc]
        rfl

theorem successDocs_lookup_none (B : Backends) (t : SourceTree) (n v : String)
    (ms : List String) (k : String)
    (hk : k ∉ ms.map WorkspaceHandler.extract_member_name) :
    assocLookup (successDocsOf B t n v ms) k = none := by
  induction ms with
  | nil => rfl
  | cons m rest ih =>
    have hk1 : k ≠ WorkspaceHandler.extract_member_name m := by
      intro hc
      exact hk (by simp [hc])
    have hk2 : k ∉ rest.map WorkspaceHandler.extract_member_name := by
      intro hc
      exact hk (by simp [hc])
    rcases hres : memberRunResult B t n v m with er | d
    · have : successDocsOf B t n v (m :: rest) = successDocsOf B t n v rest := by
        simp [successDocsOf, hres]
      rw [this]
      exact ih hk2
    · have : successDocsOf B t n v (m :: rest)
          = (WorkspaceHandler.extract_member_name m, d) :: successDocsOf B t n v rest := by
        simp [successDocsOf, hres]
      rw [this]
      simp [assocLookup, hk1]
      exact ih hk2

theorem successDocs_lookup (B : Backends) (t : SourceTree) (n v : String)
    (ms : List String) (m : String) (hm : m ∈ ms)
    (hnodup : (ms.map WorkspaceHandler.extract_member_name).Nodup) :
    assocLookup (successDocsOf B t n v ms) (WorkspaceHandler.extract_member_name m)
      = (match memberRunResult B t n v m with
        | .ok d => some d
        | .error _ => none) := by
  induction ms with
  | nil => cases hm
  | cons a rest ih =>
    have hnodup' : (rest.map WorkspaceHandler.extract_member_name).Nodup :=
      (List.nodup_cons.mp hnodup).2
    have hhead : WorkspaceHandler.extract_member_name a
        ∉ rest.map WorkspaceHandler.extract_member_name :=
      (List.nodup_cons.mp hnodup).1
    rcases List.mem_cons.mp hm with hma | hmr
    · subst hma
      rcases hres : memberRunResult B t n v m with er | d
      · have : successDocsOf B t n v (m :: rest) = successDocsOf B t n v rest := by
          simp [successDocsOf, hres]
        rw [this]
        exact successDocs_lookup_none B t n v rest _ hhead
      · have : successDocsOf B t n v (m :: rest)
            = (WorkspaceHandler.extract_member_name m, d) :: successDocsOf B t n v rest := by
          simp [successDocsOf, hres]
        rw [this]
        simp [assocLookup]
    · have hne : WorkspaceHandler.extract_member_name m
          ≠ WorkspaceHandler.extract_member_name a := by
        intro hc
        exact hhead (hc ▸ List.mem_map_of_mem WorkspaceHandler.extract_member_name hmr)
      rcases hres : memberRunResult B t n v a with er | d
      · have : successDocsOf B t n v (a :: rest) = successDocsOf B t n v rest := by
          simp [successDocsOf, hres]
        rw [this]
        exact ih hmr hnodup'
      · have : successDocsOf B t n v (a :: rest)
            = (WorkspaceHandler.extract_member_name a, d) :: successDocsOf B t n v rest := by
          simp [successDocsOf, hres]
        rw [this]
        simp [assocLookup, hne]
        exact ih hmr hnodup'

/-- C4 (amended): member fan-out aggregation for member lists whose
resolved member names (last path segments) are pairwise distinct and not
already cached, over a cached source tree — when some requested members
succeed and some fail, cache_workspace_members returns PartialSuccess
carrying exactly one success message per succeeded member and one error
message per failed member, in request order; each member's outcome is
`memberRunResult`, a function of the backends, the shared tree and that
member alone, so no member's failure changes another member's result;
and afterwards a member's docs exist iff that member succeeded.  The
name-distinctness restriction is forced: member artifacts are keyed by
the resolved member name, so two paths with the same last segment share
one artifact slot (see the counterexample below). -/
theorem cache_workspace_members_fanout (B : Backends) (σ : CacheState) (n v : String)
    (ms : List String) (s : Option String) (u : Bool)
    (t : SourceTree) (d0 : Option Docs) (mds : List (String × Docs))
    (hentry : assocLookup σ.entries (n, v) = some ⟨t, d0, mds⟩)
    (hfresh : ∀ m ∈ ms, assocLookup mds (WorkspaceHandler.extract_member_name m) = none)
    (hnodup : (ms.map WorkspaceHandler.extract_member_name).Nodup)
    (_hsucc : ∃ m ∈ ms, exceptOk (memberRunResult B t n v m) = true)
    (hfail : ∃ m ∈ ms, exceptOk (memberRunResult B t n v m) = false) :
    ∃ σf, cache_workspace_members B σ n v ms s u
        = (.membersPartial n v ms
            (ms.filterMap fun m =>
              match memberRunResult B t n v m with
              | .ok _ => some (memberSuccessMsg m)
              | .error _ => none)
            (ms.filterMap fun m =>
              match memberRunResult B t n v m with
              | .error e => some (memberErrorMsg m e)
              | .ok _ => none)
            u, σf) ∧
      ∀ m ∈ ms, has_member_docs σf n v (WorkspaceHandler.extract_member_name m)
          = exceptOk (memberRunResult B t n v m) := by
  obtain ⟨σf, hrun, hlast⟩ :=
    run_member_futures_spec B n v s t d0 ms σ mds hentry hfresh hnodup
  refine ⟨σf, ?_, ?_⟩
  · obtain ⟨mf, hmf, hmfres⟩ := hfail
    obtain ⟨ef, hef⟩ : ∃ ef, memberRunResult B t n v mf = .error ef := by
      rcases hr : memberRunResult B t n v mf with er | dd
      · exact ⟨er, rfl⟩
      · rw [hr] at hmfres
        simp [exceptOk] at hmfres
    unfold cache_workspace_members
    rw [hrun]
    dsimp only
    rw [List.filterMap_map, List.filterMap_map]
    have herrs : memberErrorMsg mf ef ∈ ms.filterMap
        ((fun p : String × Except Err Docs =>
          match p.2 with
          | .error e => some (memberErrorMsg p.1 e)
          | .ok _ => none) ∘ fun m => (m, memberRunResult B t n v m)) := by
      refine List.mem_filterMap.mpr ⟨mf, hmf, ?_⟩
      simp [Function.comp, hef]
    have hne : (ms.filterMap
        ((fun p : String × Except Err Docs =>
          match p.2 with
          | .error e => some (memberErrorMsg p.1 e)
          | .ok _ => none) ∘ fun m => (m, memberRunResult B t n v m))).isEmpty = false := by
      rcases hl : ms.filterMap
          ((fun p : String × Except Err Docs =>
            match p.2 with
            | .error e => some (memberErrorMsg p.1 e)
            | .ok _ => none) ∘ fun m => (m, memberRunResult B t n v m)) with _ | ⟨a, l⟩
      · rw [hl] at herrs
        cases herrs
      · rfl
    simp [hne]
    exact ⟨rfl, rfl⟩
  · intro m hm
    have hfm := hfresh m hm
    unfold has_member_docs
    rw [hlast]
    dsimp only
    rw [assocLookup_append_of_none hfm]
    rw [successDocs_lookup B t n v ms m hm hnodup]
    rcases hres : memberRunResult B t n v m with er | d
    · simp [exceptOk]
    · simp [exceptOk]

/-- A state with the two-member workspace "w" 1 cached and no member
artifacts yet. -/
def wsCachedClean : CacheState := ⟨[(("w", "1"), ⟨wsTree, none, []⟩)], [], []⟩

/-- Witness for C4: members [crates/a, crates/b] under mixedBackends —
crates/a succeeds, crates/b fails — yield PartialSuccess with exactly
the two messages, and only crates/a's docs exist afterwards. -/
theorem cache_workspace_members_fanout_witness :
    ∃ σf, cache_workspace_members mixedBackends wsCachedClean "w" "1"
        ["crates/a", "crates/b"] none false
        = (.membersPartial "w" "1" ["crates/a", "crates/b"]
            (["crates/a", "crates/b"].filterMap fun m =>
              match memberRunResult mixedBackends wsTree "w" "1" m with
              | .ok _ => some (memberSuccessMsg m)
              | .error _ => none)
            (["crates/a", "crates/b"].filterMap fun m =>
              match memberRunResult mixedBackends wsTree "w" "1" m with
              | .error e => some (memberErrorMsg m e)
              | .ok _ => none)
            false, σf) ∧
      ∀ m ∈ ["crates/a", "crates/b"],
        has_member_docs σf "w" "1" (WorkspaceHandler.extract_member_name m)
          = exceptOk (memberRunResult mixedBackends wsTree "w" "1" m) :=
  cache_workspace_members_fanout mixedBackends wsCachedClean "w" "1"
    ["crates/a", "crates/b"] none false wsTree none [] (by decide)
    (by intro m hm; fin_cases hm <;> rfl) (by decide)
    ⟨"crates/a", by decide⟩ ⟨"crates/b", by decide⟩

/-- A workspace whose two member paths share the last segment "x", so
both members' artifacts resolve to the same member name. -/
def collisionTree : SourceTree :=
  ⟨true, .ok true, .ok ["crates/x", "legacy/x"], ["crates/x", "legacy/x"]⟩

/-- Backends for which member "crates/x" generates and "legacy/x"
fails. -/
def collisionBackends : Backends :=
  ⟨fun _ _ _ => .ok collisionTree, fun _ _ => .ok 7,
    fun _ _ m => if m = "legacy/x" then .error (.generationFailed "legacy broken") else .ok 5,
    none, none⟩

/-- A state with the colliding workspace "w" 1 cached and no member
artifacts. -/
def collisionCached : CacheState := ⟨[(("w", "1"), ⟨collisionTree, none, []⟩)], [], []⟩

/-- C4 counterexample to the claim as frozen, at the member paths
[crates/x, legacy/x] (distinct paths, equal last segment "x"): with the
failing member first, the outcome is the expected PartialSuccess, yet
the failed member legacy/x's docs DO exist afterwards — its resolved
name "x" holds the sibling's artifact — refuting "failed members' docs
do not [exist]"; and with the successful sibling first, legacy/x, whose
own generation fails, reports success by loading the sibling's artifact
(the outcome is MembersSuccess), so one member's result does change
another member's result, refuting the independence conjunct. -/
theorem cache_workspace_members_collision_counterexample :
    (cache_workspace_members collisionBackends collisionCached "w" "1"
        ["legacy/x", "crates/x"] none false).1
      = .membersPartial "w" "1" ["legacy/x", "crates/x"]
          ["Successfully cached member: crates/x"]
          ["Failed to cache member legacy/x: doc generation failed: legacy broken"] false ∧
    has_member_docs
        (cache_workspace_members collisionBackends collisionCached "w" "1"
          ["legacy/x", "crates/x"] none false).2 "w" "1"
        (WorkspaceHandler.extract_member_name "legacy/x") = true ∧
    (cache_workspace_members collisionBackends collisionCached "w" "1"
        ["crates/x", "legacy/x"] none false).1
      = .membersSuccess "w" "1" ["crates/x", "legacy/x"]
          ["Successfully cached member: crates/x", "Successfully cached member: legacy/x"]
          false := by
  decide

end RustDocsMcp